import Mathlib

/-!
Verification development for the Tenant Lease Analyzer application
(`lease_analyzer_app.py`).  The Python code is shallowly embedded: strings
become `List Char`, Python dictionaries become association lists, JSON values
become the inductive type `Json`, the remote model client becomes an explicit
function argument returning `Except`, and code that can raise a Python
exception returns `Except` with the exception message.
-/

namespace LeaseApp

/-- Python strings are embedded as lists of characters. -/
abbrev Str := List Char

/-- Shorthand turning a Lean string literal into the embedded string type. -/
def S (s : String) : Str := s.data

/-- Embedded JSON / Python values as produced by `json.loads`.
Numbers keep their source literal (a faithful syntactic representation that
avoids modelling floating point); `null` doubles as Python `None`. -/
inductive Json where
  | null
  | bool (b : Bool)
  | num (lit : Str)
  | str (s : Str)
  | arr (elems : List Json)
  | obj (entries : List (Str × Json))

/-- Python `value == someString`: only a string compares equal to a string. -/
def isStrEq (v : Json) (t : Str) : Bool :=
  match v with
  | .str s => s = t
  | _ => false

/-- First key of a JSON object, used to discriminate concrete objects. -/
def firstKey : Json → Option Str
  | .obj ((k, _) :: _) => some k
  | _ => none

/-- Association-list lookup (first match), embedding Python dict access;
the parser below keeps keys unique, matching Python dict semantics. -/
def lookupKV (es : List (Str × Json)) (k : Str) : Option Json :=
  match es with
  | [] => none
  | (k1, v) :: r => if k1 = k then some v else lookupKV r k

/-- Python `d.get(k)`: `None` when the key is absent. -/
def dictGet (es : List (Str × Json)) (k : Str) : Json :=
  (lookupKV es k).getD Json.null

/-- Python `d.get(k, default)`. -/
def dictGetD (es : List (Str × Json)) (k : Str) (d : Json) : Json :=
  (lookupKV es k).getD d

/-- Python `d[k] = v`: replaces the value in place when the key exists,
appends otherwise. -/
def upsert (es : List (Str × Json)) (k : Str) (v : Json) : List (Str × Json) :=
  match es with
  | [] => [(k, v)]
  | (k1, v1) :: r => if k1 = k then (k1, v) :: r else (k1, v1) :: upsert r k v

/-- A JSON number literal denotes a nonzero value unless its mantissa digits
are all `0` (exponents cannot rescue a zero mantissa; `NaN` and `Infinity`
literals have no digits and are truthy, as in Python). -/
def numLitTruthy (lit : Str) : Bool :=
  let body := if lit.head? = some '-' then lit.tail else lit
  let mantissa := (body.takeWhile (fun c => c ≠ 'e' && c ≠ 'E')).filter Char.isDigit
  mantissa.isEmpty || mantissa.any (fun c => c ≠ '0')

/-- Python truthiness of an embedded value (`bool(v)`). -/
def pyTruthy : Json → Bool
  | .null => false
  | .bool b => b
  | .num lit => numLitTruthy lit
  | .str s => !s.isEmpty
  | .arr xs => !xs.isEmpty
  | .obj es => !es.isEmpty

mutual
/-- Python `str(v)` as used by f-string / prompt-template interpolation.
Strings are inserted verbatim, `None`/`True`/`False` print their Python
names, numbers print their literal (floats are kept syntactic), and
containers print in Python `repr` style (string escaping elided). -/
def pyStr : Json → Str
  | .null => S "None"
  | .bool true => S "True"
  | .bool false => S "False"
  | .num lit => lit
  | .str s => s
  | .arr xs => '[' :: pyStrList xs ++ [']']
  | .obj es => '\x7b' :: pyStrEntries es ++ ['\x7d']

def pyStrList : List Json → Str
  | [] => []
  | [x] => pyReprAux x
  | x :: xs => pyReprAux x ++ S ", " ++ pyStrList xs

def pyStrEntries : List (Str × Json) → Str
  | [] => []
  | [(k, v)] => '\x27' :: k ++ S "\x27: " ++ pyReprAux v
  | (k, v) :: es => '\x27' :: k ++ S "\x27: " ++ pyReprAux v ++ S ", " ++ pyStrEntries es

/-- Python `repr(v)` for container elements: like `pyStr` but strings are
quoted. -/
def pyReprAux : Json → Str
  | .str s => '\x27' :: s ++ ['\x27']
  | .null => S "None"
  | .bool true => S "True"
  | .bool false => S "False"
  | .num lit => lit
  | .arr xs => '[' :: pyStrList xs ++ [']']
  | .obj es => '\x7b' :: pyStrEntries es ++ ['\x7d']
end

/-! ## The greedy bracket span

`re.search(r"\x7b.*\x7d", result, re.DOTALL)` matches the substring running
from the first opening character to the last closing character of the whole
string, provided some closing character occurs after the first opening one.
The same computation is expressed structurally: drop everything before the
first opening character, then cut everything after the last closing one. -/

/-- Span from the first `openC` to the last `closeC` of `s` (the greedy
`re.search` match), `none` when the pattern does not match. -/
def spanFromTo (openC closeC : Char) (s : Str) : Option Str :=
  let t := (((s.dropWhile (fun c => c ≠ openC)).reverse.dropWhile
      (fun c => c ≠ closeC)).reverse)
  if 2 ≤ t.length then some t else none

/-- The `re.search(r"\x7b.*\x7d", result, re.DOTALL)` match used by
`extract_lease_metadata`. -/
def braceSpan (s : Str) : Option Str := spanFromTo '\x7b' '\x7d' s

/-- The `re.search(r"\[.*\]", result, re.DOTALL)` match used by
`identify_problematic_clauses`. -/
def bracketSpan (s : Str) : Option Str := spanFromTo '[' ']' s

/-! ## `json.loads`

A recursive-descent parser for the JSON grammar accepted by Python's
`json.loads` (strict mode): optional surrounding whitespace from
`" \t\n\r"`, objects, arrays, strings with escape sequences, numbers of the
form `-?(0|[1-9][0-9]*)(\.[0-9]+)?([eE][+-]?[0-9]+)?`, the literals `true`,
`false`, `null`, and the Python extensions `NaN`, `Infinity`, `-Infinity`.
Numbers are kept as literals.  Lone surrogate escapes are approximated by
`Char.ofNat` (Lean characters exclude surrogates); no claim depends on them.
Fuel bounds the recursion depth; `json_loads` supplies more fuel than any
input can consume (every recursive call first consumes input). -/

/-- JSON whitespace accepted by Python between tokens. -/
def isJsonWs (c : Char) : Bool := c = ' ' || c = '\t' || c = '\n' || c = '\r'

/-- Skip leading JSON whitespace. -/
def skipWs (s : Str) : Str := s.dropWhile isJsonWs

/-- Value of one hexadecimal digit (code points compared numerically:
digits 48-57, lowercase 97-102, uppercase 65-70). -/
def hexVal (c : Char) : Option Nat :=
  let n := c.toNat
  if 48 ≤ n && n ≤ 57 then some (n - 48)
  else if 97 ≤ n && n ≤ 102 then some (n - 87)
  else if 65 ≤ n && n ≤ 70 then some (n - 55)
  else none

/-- Decode a `\uXXXX` quadruple to its 16-bit value. -/
def hex4 (a b c d : Char) : Option Nat :=
  match hexVal a, hexVal b, hexVal c, hexVal d with
  | some x1, some x2, some x3, some x4 =>
    some (x1 * 4096 + x2 * 256 + x3 * 16 + x4)
  | _, _, _, _ => none

/-- Parse the remainder of a JSON string (the opening quote already
consumed), returning the decoded characters and the rest of the input.
Strict mode: raw control characters below `0x20` are rejected.  Surrogate
pairs are combined as Python does. -/
def parseStringRest : Nat → Str → Option (Str × Str)
  | 0, _ => none
  | _, [] => none
  | _ + 1, '"' :: rest => some ([], rest)
  | fuel + 1, '\\' :: 'u' :: a :: b :: c :: d :: '\\' :: 'u' :: a2 :: b2 :: c2 :: d2 :: r => do
    let hi ← hex4 a b c d
    if 55296 ≤ hi && hi < 56320 then do
      let lo ← hex4 a2 b2 c2 d2
      if 56320 ≤ lo && lo < 57344 then do
        let (s, r1) ← parseStringRest fuel r
        pure (Char.ofNat (65536 + 1024 * (hi - 55296) + (lo - 56320)) :: s, r1)
      else do
        let (s, r1) ← parseStringRest fuel ('\\' :: 'u' :: a2 :: b2 :: c2 :: d2 :: r)
        pure (Char.ofNat hi :: s, r1)
    else do
      let (s, r1) ← parseStringRest fuel ('\\' :: 'u' :: a2 :: b2 :: c2 :: d2 :: r)
      pure (Char.ofNat hi :: s, r1)
  | fuel + 1, '\\' :: 'u' :: a :: b :: c :: d :: r => do
    let hi ← hex4 a b c d
    let (s, r1) ← parseStringRest fuel r
    pure (Char.ofNat hi :: s, r1)
  | fuel + 1, '\\' :: esc =>
    match esc with
    | '"' :: r => do let (s, r1) ← parseStringRest fuel r; pure ('"' :: s, r1)
    | '\\' :: r => do let (s, r1) ← parseStringRest fuel r; pure ('\\' :: s, r1)
    | '/' :: r => do let (s, r1) ← parseStringRest fuel r; pure ('/' :: s, r1)
    | 'b' :: r => do let (s, r1) ← parseStringRest fuel r; pure ('\x08' :: s, r1)
    | 'f' :: r => do let (s, r1) ← parseStringRest fuel r; pure ('\x0c' :: s, r1)
    | 'n' :: r => do let (s, r1) ← parseStringRest fuel r; pure ('\n' :: s, r1)
    | 'r' :: r => do let (s, r1) ← parseStringRest fuel r; pure ('\r' :: s, r1)
    | 't' :: r => do let (s, r1) ← parseStringRest fuel r; pure ('\t' :: s, r1)
    | _ => none
  | fuel + 1, c :: rest =>
    if c.toNat < 0x20 then none
    else do
      let (s, r1) ← parseStringRest fuel rest
      pure (c :: s, r1)

/-- Parse a JSON number literal at the head of `s`, returning the literal
characters and the rest.  Follows the `json` module regular expression
`-?(0|[1-9][0-9]*)(\.[0-9]+)?([eE][+-]?[0-9]+)?`. -/
def parseNumber (s : Str) : Option (Str × Str) := do
  let (sign, s1) :=
    match s with
    | '-' :: r => (['-'], r)
    | _ => (([] : Str), s)
  let (intPart, s2) ←
    match s1 with
    | '0' :: r => some ((['0'] : Str), r)
    | c :: r =>
      if '1' ≤ c && c ≤ '9' then
        some (c :: r.takeWhile Char.isDigit, r.dropWhile Char.isDigit)
      else none
    | [] => none
  let (fracPart, s3) ←
    match s2 with
    | '.' :: r =>
      let ds := r.takeWhile Char.isDigit
      if ds.isEmpty then none else some ('.' :: ds, r.dropWhile Char.isDigit)
    | _ => some (([] : Str), s2)
  let (expPart, s4) ←
    match s3 with
    | e :: r =>
      if e = 'e' || e = 'E' then
        let (es, r1) :=
          match r with
          | '+' :: r2 => ((['+'] : Str), r2)
          | '-' :: r2 => ((['-'] : Str), r2)
          | _ => (([] : Str), r)
        let ds := r1.takeWhile Char.isDigit
        if ds.isEmpty then none else some (e :: es ++ ds, r1.dropWhile Char.isDigit)
      else some (([] : Str), s3)
    | [] => some (([] : Str), s3)
  pure (sign ++ intPart ++ fracPart ++ expPart, s4)

mutual
/-- Parse one JSON value at the head of `s` (leading whitespace already
skipped by the caller for the very first token; skipped here inside
containers). -/
def parseValue : Nat → Str → Option (Json × Str)
  | 0, _ => none
  | fuel + 1, s =>
    match s with
    | [] => none
    | '\x7b' :: r =>
      match skipWs r with
      | '\x7d' :: r1 => some (Json.obj [], r1)
      | r1 => parseMembers fuel r1 []
    | '[' :: r =>
      match skipWs r with
      | ']' :: r1 => some (Json.arr [], r1)
      | r1 => parseElems fuel r1 []
    | '"' :: r => do
      let (str, r1) ← parseStringRest (fuel + 1) r
      pure (Json.str str, r1)
    | 't' :: 'r' :: 'u' :: 'e' :: r => some (Json.bool true, r)
    | 'f' :: 'a' :: 'l' :: 's' :: 'e' :: r => some (Json.bool false, r)
    | 'n' :: 'u' :: 'l' :: 'l' :: r => some (Json.null, r)
    | 'N' :: 'a' :: 'N' :: r => some (Json.num (S "NaN"), r)
    | 'I' :: 'n' :: 'f' :: 'i' :: 'n' :: 'i' :: 't' :: 'y' :: r =>
      some (Json.num (S "Infinity"), r)
    | '-' :: 'I' :: 'n' :: 'f' :: 'i' :: 'n' :: 'i' :: 't' :: 'y' :: r =>
      some (Json.num (S "-Infinity"), r)
    | c :: _ =>
      if c = '-' || c.isDigit then do
        let (lit, r1) ← parseNumber s
        pure (Json.num lit, r1)
      else none

/-- Parse the members of an object after `\x7b` (first member expected:
Python rejects a trailing comma). -/
def parseMembers : Nat → Str → List (Str × Json) → Option (Json × Str)
  | 0, _, _ => none
  | fuel + 1, s, acc =>
    match s with
    | '"' :: r => do
      let (k, r1) ← parseStringRest (fuel + 1) r
      match skipWs r1 with
      | ':' :: r2 => do
        let (v, r3) ← parseValue fuel (skipWs r2)
        match skipWs r3 with
        | ',' :: r4 => parseMembers fuel (skipWs r4) (upsert acc k v)
        | '\x7d' :: r4 => some (Json.obj (upsert acc k v), r4)
        | _ => none
      | _ => none
    | _ => none

/-- Parse the elements of an array after `[` (first element expected). -/
def parseElems : Nat → Str → List Json → Option (Json × Str)
  | 0, _, _ => none
  | fuel + 1, s, acc => do
    let (v, r) ← parseValue fuel s
    match skipWs r with
    | ',' :: r1 => parseElems fuel (skipWs r1) (acc ++ [v])
    | ']' :: r1 => some (Json.arr (acc ++ [v]), r1)
    | _ => none
end

/-- Python `json.loads`: skip leading whitespace, parse one value, skip
trailing whitespace, and reject leftover input ("Extra data").  `none`
models a raised `json.JSONDecodeError`. -/
def json_loads (s : Str) : Option Json := do
  let (v, rest) ← parseValue (s.length + 1) (skipWs s)
  if (skipWs rest).isEmpty then pure v else none

/-! ## Response extraction (the parsing steps of `extract_lease_metadata`
and `identify_problematic_clauses`) -/

/-- The sentinel object returned by `extract_lease_metadata` when JSON
decoding fails. -/
def sentinelMetadata (result : Str) : Json :=
  Json.obj [(S "error", Json.str (S "Could not parse lease metadata")),
            (S "raw_response", Json.str result)]

/-- The parsing step of `extract_lease_metadata`: decode the greedy brace
span when the regular expression matches, the whole completion otherwise;
a `json.JSONDecodeError` is absorbed into the sentinel object. -/
def extractParseObj (result : Str) : Json :=
  match braceSpan result with
  | some m => (json_loads m).getD (sentinelMetadata result)
  | none => (json_loads result).getD (sentinelMetadata result)

/-- The sentinel clause returned by `identify_problematic_clauses` when
JSON decoding fails. -/
def sentinelClause : Json :=
  Json.obj [(S "clause", Json.str (S "Error parsing response")),
            (S "issue", Json.str (S "Could not analyze lease")),
            (S "severity", Json.str (S "Unknown")),
            (S "potentially_illegal", Json.bool false),
            (S "recommendation", Json.str (S "Manual review required"))]

/-- The parsing step of `identify_problematic_clauses`: decode the greedy
bracket span when the regular expression matches, the whole completion
otherwise; a decode error is absorbed into a one-element sentinel list. -/
def identifyParse (result : Str) : Json :=
  match bracketSpan result with
  | some m => (json_loads m).getD (Json.arr [sentinelClause])
  | none => (json_loads result).getD (Json.arr [sentinelClause])

/-! ## Model invocation client and prompt templates

`LLMChain.run` renders the `PromptTemplate` (plain textual substitution of
the named placeholders, non-string arguments via `str()`) and sends the
result to the remote model.  The client is modelled as a function from the
rendered prompt to either a completion or a raised transport error
(`Except.error` carries `str(e)`). -/

structure Client where
  complete : Str → Except Str Str

/-- `extract_lease_metadata` template up to the `lease_text` placeholder. -/
def metadataPromptPre : Str := S "\nYou are a lease analysis expert. Extract the following information from this lease document.\nReturn ONLY valid JSON with no additional text.\n\nRequired fields (use null if not found):\n- property_address: Full address\n- city: City name\n- state: State\n- zip_code: ZIP code\n- monthly_rent: Monthly rent amount (number only)\n- security_deposit: Security deposit amount (number only)\n- lease_start_date: Start date (YYYY-MM-DD format)\n- lease_end_date: End date (YYYY-MM-DD format)\n- landlord_name: Landlord or property management company name\n- number_of_bedrooms: Number of bedrooms (number only)\n- number_of_bathrooms: Number of bathrooms (number only)\n\nLease text:\n"

/-- `extract_lease_metadata` template after the `lease_text` placeholder. -/
def metadataPromptPost : Str := S "\n\nReturn JSON only:\n"

/-- `summarize_lease` template up to the `lease_text` placeholder. -/
def summaryPromptPre : Str := S "\nYou are a tenant rights advocate helping renters understand their leases.\n\nProvide a clear, comprehensive summary of this lease in plain English. Include:\n\n1. **Basic Terms**: Rent amount, security deposit, lease duration, property address\n2. **Key Obligations**: What the tenant must do (pay rent, maintain property, etc.)\n3. **Key Rights**: What the tenant is entitled to (repairs, privacy, quiet enjoyment, etc.)\n4. **Important Restrictions**: Pet policies, subletting rules, guest policies, noise restrictions\n5. **Financial Terms**: Late fees, utilities included/excluded, renewal terms\n6. **Maintenance & Repairs**: Who is responsible for what\n7. **Termination Terms**: Notice requirements, early termination clauses, penalties\n\nKeep your summary under 500 words and use clear, accessible language.\n\nLease text:\n"

/-- `summarize_lease` template after the `lease_text` placeholder. -/
def summaryPromptPost : Str := S "\n\nSummary:\n"

/-- `identify_problematic_clauses` template up to the placeholder. -/
def identifyPromptPre : Str := S "\nYou are a tenant rights attorney reviewing a lease for potential problems.\n\nAnalyze this lease and identify any clauses that are:\n1. Unusually restrictive or punitive\n2. Potentially illegal or unenforceable\n3. Heavily favor the landlord over the tenant\n4. Common predatory practices (excessive fees, unfair penalties, etc.)\n5. Vague or ambiguous terms that could be exploited\n\nFor each problematic clause, provide:\n- The exact clause or provision (quote it)\n- Why it\x27s problematic\n- The severity level (Low/Medium/High concern)\n- Whether it might be illegal or unenforceable\n\nReturn your analysis as a JSON array with objects containing:\n- \"clause\": the actual text from the lease\n- \"issue\": description of the problem\n- \"severity\": \"Low\", \"Medium\", or \"High\"\n- \"potentially_illegal\": true/false\n- \"recommendation\": what the tenant should do\n\nLease text:\n"

/-- `identify_problematic_clauses` template after the placeholder. -/
def identifyPromptPost : Str := S "\n\nReturn ONLY valid JSON array:\n"

/-- `get_rental_price_context` template pieces around the placeholders
`city`, `state`, `zip_code`, `bedrooms`, `monthly_rent`, `bedrooms`. -/
def pricePromptP1 : Str := S "\nYou are a real estate market analyst. Provide context on whether this rental price is reasonable.\n\nLocation: "

def pricePromptP2 : Str := S "\nBedrooms: "

def pricePromptP3 : Str := S "\nMonthly Rent: $"

def pricePromptP4 : Str := S "\n\nProvide:\n1. General market trends for this area (if you have knowledge)\n2. Typical rent ranges for "

def pricePromptP5 : Str := S "-bedroom units in this area\n3. Assessment of whether this price seems fair, high, or low\n4. Suggestions for resources to verify current market rates (Zillow, Apartments.com, etc.)\n5. Factors that could justify higher or lower rent\n\nNote: Your knowledge may be outdated. Always recommend checking current listings.\n\nAnalysis:\n"

/-- `suggest_lease_rewrites` per-clause template pieces around the
placeholders `clause` and `issue`. -/
def rewritePromptP1 : Str := S "\nYou are a tenant rights attorney helping to negotiate fair lease terms.\n\nOriginal problematic clause:\n"

def rewritePromptP2 : Str := S "\n\nIssue identified:\n"

def rewritePromptP3 : Str := S "\n\nProvide:\n1. A rewritten version of this clause that is fair to both parties\n2. Key changes you made and why\n3. Talking points the tenant can use when negotiating\n\nKeep suggestions practical and reasonable.\n\nResponse:\n"

/-- `get_tenant_rights_advice` template pieces around the placeholders
`location` and `lease_text`. -/
def rightsPromptPre : Str := S "\nYou are a tenant rights expert. Provide important tenant rights information for this location.\n\nLocation: "

def rightsPromptMid : Str := S "\n\nBased on this lease and general tenant rights in this location, explain:\n1. Key tenant rights (habitability, privacy, repairs, etc.)\n2. Landlord obligations\n3. Security deposit rules\n4. Notice requirements for entry and termination\n5. Protections against unfair practices\n6. Where to get help (legal aid, tenant unions, etc.)\n\nNote: Recommend checking current local laws as they may have changed.\n\nLease excerpt (for context):\n"

def rightsPromptPost : Str := S "\n\nTenant rights information:\n"

/-! ## LeaseAnalyzer operations -/

/-- `extract_lease_metadata`: render the template over the first 8000
characters of the lease text, invoke the model, and run the parsing step. -/
def extract_lease_metadata (c : Client) (lease_text : Str) : Except Str Json := do
  let result ← c.complete (metadataPromptPre ++ lease_text.take 8000 ++ metadataPromptPost)
  pure (extractParseObj result)

/-- `summarize_lease`: render the template over the full lease text and
invoke the model. -/
def summarize_lease (c : Client) (lease_text : Str) : Except Str Str :=
  c.complete (summaryPromptPre ++ lease_text ++ summaryPromptPost)

/-- `identify_problematic_clauses`: render the template over the full lease
text, invoke the model, and run the array parsing step. -/
def identify_problematic_clauses (c : Client) (lease_text : Str) : Except Str Json := do
  let result ← c.complete (identifyPromptPre ++ lease_text ++ identifyPromptPost)
  pure (identifyParse result)

/-- `get_rental_price_context`: render the template (arguments are
interpolated with `str()`) and invoke the model. -/
def get_rental_price_context (c : Client) (city state zip_code bedrooms monthly_rent : Json) :
    Except Str Str :=
  c.complete (pricePromptP1 ++ pyStr city ++ S ", " ++ pyStr state ++ S " " ++ pyStr zip_code
    ++ pricePromptP2 ++ pyStr bedrooms ++ pricePromptP3 ++ pyStr monthly_rent
    ++ pricePromptP4 ++ pyStr bedrooms ++ pricePromptP5)

/-- `get_tenant_rights_advice`: `location` is `f"city, state"` when `city`
is truthy, else the bare `state` value; the lease text is truncated to its
first 4000 characters. -/
def get_tenant_rights_advice (c : Client) (lease_text : Str) (state city : Json) :
    Except Str Str :=
  let location := if pyTruthy city then pyStr city ++ S ", " ++ pyStr state else pyStr state
  c.complete (rightsPromptPre ++ location ++ rightsPromptMid ++ lease_text.take 4000
    ++ rightsPromptPost)

/-! ## `suggest_lease_rewrites`

The Python function receives `problematic_clauses` as an arbitrary value
(whatever the parsing step produced).  Calling `.get` on a non-dict element
raises `AttributeError`; iterating a non-iterable raises `TypeError`; both
are modelled as `Except.error`. -/

/-- Python `v.get(k)` on an arbitrary value: `AttributeError` unless `v` is
a dict. -/
def pyGet (v : Json) (k : Str) : Except Str Json :=
  match v with
  | .obj es => .ok (dictGet es k)
  | _ => .error (S "AttributeError: object has no attribute get")

/-- Python `v.get(k, d)` on an arbitrary value. -/
def pyGetD (v : Json) (k : Str) (d : Json) : Except Str Json :=
  match v with
  | .obj es => .ok (dictGetD es k d)
  | _ => .error (S "AttributeError: object has no attribute get")

/-- The list comprehension
`[c for c in problematic_clauses if c.get('severity') in ['High', 'Medium']]`:
each element's `severity` is fetched in order; the first non-dict element
raises. -/
def filterHighMed : List Json → Except Str (List Json)
  | [] => .ok []
  | c :: rest => do
    let sev ← pyGet c (S "severity")
    let tail ← filterHighMed rest
    pure (if isStrEq sev (S "High") || isStrEq sev (S "Medium") then c :: tail else tail)

/-- One iteration of the rewrite loop: render the per-clause template with
the clause and issue text, invoke the model, and build the suggestion
dict. -/
def rewriteOne (c : Client) (clause_info : Json) : Except Str (List (Str × Json)) := do
  let cl ← pyGetD clause_info (S "clause") (Json.str [])
  let iss ← pyGetD clause_info (S "issue") (Json.str [])
  let suggestion ← c.complete (rewritePromptP1 ++ pyStr cl ++ rewritePromptP2 ++ pyStr iss
    ++ rewritePromptP3)
  let cl2 ← pyGetD clause_info (S "clause") (Json.str [])
  let sev ← pyGetD clause_info (S "severity") (Json.str [])
  pure [(S "original_clause", cl2), (S "severity", sev),
        (S "rewrite_suggestion", Json.str suggestion)]

/-- The `for clause_info in high_priority[:5]` loop accumulating
`rewrites`. -/
def rewriteLoop (c : Client) : List Json → Except Str (List (List (Str × Json)))
  | [] => .ok []
  | ci :: rest => do
    let r ← rewriteOne c ci
    let tail ← rewriteLoop c rest
    pure (r :: tail)

/-- `suggest_lease_rewrites`.  `lease_text` is received but unused by the
source beyond its signature.  Empty/falsy input returns `[]`; a truthy
non-list input fails while being iterated (its elements, had it any, are
not dicts). -/
def suggest_lease_rewrites (c : Client) (problematic_clauses : Json) (lease_text : Str) :
    Except Str (List (List (Str × Json))) :=
  if !pyTruthy problematic_clauses then .ok []
  else
    match problematic_clauses with
    | .arr cs => do
      let high_priority ← filterHighMed cs
      if high_priority.isEmpty then pure []
      else rewriteLoop c (high_priority.take 5)
    | .str chars => do
      -- iterating a Python str yields 1-character strings, whose `.get`
      -- raises AttributeError at the first element
      let _ ← filterHighMed (chars.map (fun ch => Json.str [ch]))
      .error (S "AttributeError: object has no attribute get")
    | _ => .error (S "TypeError: object is not iterable")

/-! ## LeaseAnalyzerAgent session state and `load_lease` /
`load_lease_text` -/

/-- The agent's mutable fields: `self.lease_text` and `self.metadata`,
both `None` after `__init__`. -/
structure AgentState where
  lease_text : Option Str
  metadata : Option Json

/-- The status dictionary returned by the load operations
(`metadata := none` models the error dict, which carries no metadata
key). -/
structure LoadResult where
  status : Str
  message : Str
  metadata : Option Json

/-- Python truthiness of `self.lease_text` (`None` and the empty string are
falsy). -/
def pyTruthyOptStr : Option Str → Bool
  | none => false
  | some s => !s.isEmpty

/-- `load_lease`: extract the PDF text (collaborator `loader`), store it,
extract metadata, store it; every exception from the body is caught and
converted to an error status dict.  Returns the updated state and the
status dict. -/
def load_lease (c : Client) (loader : Str → Except Str Str) (st : AgentState)
    (file_path : Str) : AgentState × LoadResult :=
  match loader file_path with
  | .error e => (st, ⟨S "error", e, none⟩)
  | .ok text =>
    let st1 := { st with lease_text := some text }
    match extract_lease_metadata c text with
    | .error e => (st1, ⟨S "error", e, none⟩)
    | .ok md =>
      ({ st1 with metadata := some md },
       ⟨S "success", S "Lease loaded successfully", some md⟩)

/-- `load_lease_text`: store the text; use `manual_metadata` when truthy,
otherwise extract metadata from the text; exceptions are caught and
converted to an error status dict. -/
def load_lease_text (c : Client) (st : AgentState) (text : Str) (manual_metadata : Json) :
    AgentState × LoadResult :=
  let st1 := { st with lease_text := some text }
  if pyTruthy manual_metadata then
    ({ st1 with metadata := some manual_metadata },
     ⟨S "success", S "Lease text loaded successfully", some manual_metadata⟩)
  else
    match extract_lease_metadata c text with
    | .error e => (st1, ⟨S "error", e, none⟩)
    | .ok md =>
      ({ st1 with metadata := some md },
       ⟨S "success", S "Lease text loaded successfully", some md⟩)

/-! ## `analyze_full_lease` -/

/-- Python `len(v)`: only sized values have a length (the progress print
after step 2 evaluates `len(results['problematic_clauses'])`). -/
def pyLen (v : Json) : Except Str Nat :=
  match v with
  | .str s => .ok s.length
  | .arr xs => .ok xs.length
  | .obj es => .ok es.length
  | _ => .error (S "TypeError: object has no len")

/-- Result of `analyze_full_lease`: either the not-loaded error dict or the
results dict (keys in initialisation order). -/
inductive AnalyzeOut where
  | notLoaded
  | results (r : List (Str × Json))

/-- `analyze_full_lease`: summary, problematic clauses, conditional price
analysis (gated on truthy `monthly_rent` and `city` metadata), rewrite
suggestions, tenant rights.  `self.metadata.get` raises unless the stored
metadata is a dict; the progress print after step 2 calls `len` on the
clauses value. -/
def analyze_full_lease (c : Client) (st : AgentState) : Except Str AnalyzeOut :=
  if !pyTruthyOptStr st.lease_text then
    .ok .notLoaded
  else do
    let text := st.lease_text.getD []
    let summary ← summarize_lease c text
    let clauses ← identify_problematic_clauses c text
    let _ ← pyLen clauses
    let md ← (match st.metadata with
      | some (Json.obj es) => Except.ok es
      | _ => Except.error (S "AttributeError: object has no attribute get"))
    let price ←
      if pyTruthy (dictGet md (S "monthly_rent")) && pyTruthy (dictGet md (S "city")) then do
        let s ← get_rental_price_context c
          (dictGetD md (S "city") (Json.str []))
          (dictGetD md (S "state") (Json.str []))
          (dictGetD md (S "zip_code") (Json.str []))
          (dictGetD md (S "number_of_bedrooms") (Json.num (S "1")))
          (dictGetD md (S "monthly_rent") (Json.num (S "0")))
        pure (Json.str s)
      else pure Json.null
    let rewrites ← suggest_lease_rewrites c clauses text
    let rights ← get_tenant_rights_advice c text
      (dictGetD md (S "state") (Json.str [])) (dictGet md (S "city"))
    pure (.results
      [(S "metadata", Json.obj md),
       (S "summary", Json.str summary),
       (S "problematic_clauses", clauses),
       (S "rental_price_analysis", price),
       (S "rewrite_suggestions", Json.arr (rewrites.map Json.obj)),
       (S "tenant_rights", Json.str rights)])

/-! ## `format_analysis_report`

The formatter receives the results dict and appends fixed-layout sections
to the report string.  Python operations that can raise on ill-typed
values (`.get` on a non-dict, `str + nonStr`, `.upper()` on a non-string,
iterating a non-list) are modelled with `Except`; each section is one
function and the report is their concatenation in source order. -/

/-- A line of 80 `=` characters. -/
def eqLine : Str := List.replicate 80 '='

/-- A line of 80 `-` characters. -/
def dashLine : Str := List.replicate 80 '-'

/-- The report banner. -/
def reportHeader : Str :=
  eqLine ++ S "\n" ++ S "LEASE ANALYSIS REPORT\n" ++ eqLine ++ S "\n\n"

/-- The report footer. -/
def reportFooter : Str :=
  eqLine ++ S "\n" ++ S "END OF REPORT\n" ++ eqLine ++ S "\n"

/-- Python `v + suffix` where `suffix` is a str: `TypeError` unless `v` is
a str. -/
def pyStrAdd (v : Json) : Except Str Str :=
  match v with
  | .str s => .ok s
  | _ => .error (S "TypeError: can only concatenate str")

/-- Python `v.upper()`: `AttributeError` unless `v` is a str (ASCII
upper-casing; claims do not involve non-ASCII severities). -/
def pyUpper (v : Json) : Except Str Str :=
  match v with
  | .str s => .ok (s.map Char.toUpper)
  | _ => .error (S "AttributeError: object has no attribute upper")

/-- Decimal rendering of the 1-based enumeration index. -/
def natStr (n : Nat) : Str := (toString n).data

/-- Property-information section: `metadata = results.get('metadata', {})`
followed by nine `metadata.get(field, 'N/A')` interpolations. -/
def propertySectionE (results : List (Str × Json)) : Except Str Str :=
  match dictGetD results (S "metadata") (Json.obj []) with
  | Json.obj md =>
    let nA := Json.str (S "N/A")
    .ok (S "📍 PROPERTY INFORMATION\n" ++ dashLine ++ S "\n"
      ++ S "Address: " ++ pyStr (dictGetD md (S "property_address") nA) ++ S "\n"
      ++ S "City: " ++ pyStr (dictGetD md (S "city") nA) ++ S ", "
        ++ pyStr (dictGetD md (S "state") nA) ++ S " "
        ++ pyStr (dictGetD md (S "zip_code") nA) ++ S "\n"
      ++ S "Monthly Rent: $" ++ pyStr (dictGetD md (S "monthly_rent") nA) ++ S "\n"
      ++ S "Security Deposit: $" ++ pyStr (dictGetD md (S "security_deposit") nA) ++ S "\n"
      ++ S "Lease Term: " ++ pyStr (dictGetD md (S "lease_start_date") nA) ++ S " to "
        ++ pyStr (dictGetD md (S "lease_end_date") nA) ++ S "\n"
      ++ S "Bedrooms: " ++ pyStr (dictGetD md (S "number_of_bedrooms") nA)
        ++ S ", Bathrooms: " ++ pyStr (dictGetD md (S "number_of_bathrooms") nA) ++ S "\n"
      ++ S "\n")
  | _ => .error (S "AttributeError: object has no attribute get")

/-- Summary section: `results.get('summary', 'N/A') + "\n\n"`. -/
def summarySectionE (results : List (Str × Json)) : Except Str Str := do
  let s ← pyStrAdd (dictGetD results (S "summary") (Json.str (S "N/A")))
  pure (S "📋 LEASE SUMMARY\n" ++ dashLine ++ S "\n" ++ s ++ S "\n\n")

/-- One problematic clause rendered by the `enumerate(clauses, 1)` loop. -/
def renderClauses (i : Nat) : List Json → Except Str Str
  | [] => .ok []
  | c :: rest =>
    match c with
    | Json.obj es => do
      let nA := Json.str (S "N/A")
      let sevU ← pyUpper (dictGetD es (S "severity") (Json.str (S "Unknown")))
      let tail ← renderClauses (i + 1) rest
      pure (S "\n" ++ natStr i ++ S ". [" ++ sevU ++ S "] "
        ++ (if pyTruthy (dictGet es (S "potentially_illegal"))
            then S "⚠️ POTENTIALLY ILLEGAL\n" else S "\n")
        ++ S "   Clause: " ++ pyStr (dictGetD es (S "clause") nA) ++ S "\n"
        ++ S "   Issue: " ++ pyStr (dictGetD es (S "issue") nA) ++ S "\n"
        ++ S "   Recommendation: " ++ pyStr (dictGetD es (S "recommendation") nA) ++ S "\n"
        ++ tail)
    | _ => .error (S "AttributeError: object has no attribute get")

/-- Problematic-clauses section:
`clauses = results.get('problematic_clauses', [])`; a truthy value is
iterated, a falsy one prints the no-issues message. -/
def issuesSectionE (results : List (Str × Json)) : Except Str Str := do
  let v := dictGetD results (S "problematic_clauses") (Json.arr [])
  let hdr := S "🚨 PROBLEMATIC CLAUSES IDENTIFIED\n" ++ dashLine ++ S "\n"
  if pyTruthy v then
    match v with
    | Json.arr xs => do
      let body ← renderClauses 1 xs
      pure (hdr ++ body ++ S "\n")
    | _ => .error (S "TypeError: object is not iterable")
  else
    pure (hdr ++ S "No significant issues identified.\n" ++ S "\n")

/-- Price-analysis section: emitted only when
`results.get('rental_price_analysis')` is truthy. -/
def priceSectionE (results : List (Str × Json)) : Except Str Str := do
  let v := dictGet results (S "rental_price_analysis")
  if pyTruthy v then do
    let s ← pyStrAdd v
    pure (S "💰 RENTAL PRICE ANALYSIS\n" ++ dashLine ++ S "\n" ++ s ++ S "\n\n")
  else
    pure []

/-- One rewrite suggestion rendered by the `enumerate(rewrites, 1)` loop. -/
def renderRewrites (i : Nat) : List Json → Except Str Str
  | [] => .ok []
  | c :: rest =>
    match c with
    | Json.obj es => do
      let tail ← renderRewrites (i + 1) rest
      pure (S "\n" ++ natStr i ++ S ". " ++ pyStr (dictGetD es (S "severity") (Json.str []))
        ++ S " Severity Issue\n"
        ++ S "   Original Clause: " ++ pyStr (dictGetD es (S "original_clause") (Json.str (S "N/A"))) ++ S "\n"
        ++ S "   Suggested Changes:\n"
        ++ S "   " ++ pyStr (dictGetD es (S "rewrite_suggestion") (Json.str (S "N/A"))) ++ S "\n"
        ++ tail)
    | _ => .error (S "AttributeError: object has no attribute get")

/-- Rewrite-suggestions section. -/
def rewritesSectionE (results : List (Str × Json)) : Except Str Str := do
  let v := dictGetD results (S "rewrite_suggestions") (Json.arr [])
  let hdr := S "✏️ SUGGESTED LEASE REWRITES\n" ++ dashLine ++ S "\n"
  if pyTruthy v then
    match v with
    | Json.arr xs => do
      let body ← renderRewrites 1 xs
      pure (hdr ++ body ++ S "\n")
    | _ => .error (S "TypeError: object is not iterable")
  else
    pure (hdr ++ S "No rewrites suggested.\n" ++ S "\n")

/-- Tenant-rights section: `results.get('tenant_rights', 'N/A') + "\n\n"`. -/
def rightsSectionE (results : List (Str × Json)) : Except Str Str := do
  let s ← pyStrAdd (dictGetD results (S "tenant_rights") (Json.str (S "N/A")))
  pure (S "⚖️ YOUR TENANT RIGHTS\n" ++ dashLine ++ S "\n" ++ s ++ S "\n\n")

/-- `format_analysis_report`: the banner and the six sections concatenated
in source order, then the footer. -/
def format_analysis_report (results : List (Str × Json)) : Except Str Str := do
  let s1 ← propertySectionE results
  let s2 ← summarySectionE results
  let s3 ← issuesSectionE results
  let s4 ← priceSectionE results
  let s5 ← rewritesSectionE results
  let s6 ← rightsSectionE results
  pure (reportHeader ++ s1 ++ s2 ++ s3 ++ s4 ++ s5 ++ s6 ++ reportFooter)

/-! ## Helper lemmas and discriminators -/

/-- Constructor tag, used to discriminate concrete values of distinct
shapes. -/
def ctorIdx : Json → Nat
  | .null => 0
  | .bool _ => 1
  | .num _ => 2
  | .str _ => 3
  | .arr _ => 4
  | .obj _ => 5

theorem dropWhile_append_all {p : Char → Bool} (l1 l2 : Str)
    (h : ∀ c ∈ l1, p c = true) :
    (l1 ++ l2).dropWhile p = l2.dropWhile p := by
  induction l1 with
  | nil => rfl
  | cons a l ih =>
    have ha : p a = true := h a (List.mem_cons_self a l)
    rw [List.cons_append, List.dropWhile_cons, if_pos ha]
    exact ih (fun c hc => h c (List.mem_cons_of_mem a hc))

/-- The greedy brace search on a well-formed object wrapped in prose whose
leading part has no opening brace and whose trailing part has no closing
brace returns exactly the object text. -/
theorem braceSpan_wrapped (pre mid post : Str)
    (hpre : ∀ c ∈ pre, c ≠ '\x7b') (hpost : ∀ c ∈ post, c ≠ '\x7d') :
    braceSpan (pre ++ ('\x7b' :: mid ++ ['\x7d']) ++ post)
      = some ('\x7b' :: mid ++ ['\x7d']) := by
  unfold braceSpan spanFromTo
  have h1 : (pre ++ ('\x7b' :: mid ++ ['\x7d']) ++ post).dropWhile
      (fun c => c ≠ '\x7b') = '\x7b' :: ((mid ++ ['\x7d']) ++ post) := by
    rw [List.append_assoc]
    rw [dropWhile_append_all pre _ (fun c hc => decide_eq_true (hpre c hc))]
    simp [List.dropWhile_cons]
  rw [h1]
  have h2 : ('\x7b' :: ((mid ++ ['\x7d']) ++ post)).reverse
      = (post.reverse ++ ('\x7d' :: mid.reverse)) ++ ['\x7b'] := by
    simp [List.reverse_cons, List.reverse_append]
  rw [h2]
  have h3 : ((post.reverse ++ ('\x7d' :: mid.reverse)) ++ ['\x7b']).dropWhile
      (fun c => c ≠ '\x7d') = '\x7d' :: (mid.reverse ++ ['\x7b']) := by
    rw [List.append_assoc]
    rw [dropWhile_append_all post.reverse _
      (fun c hc => decide_eq_true (hpost c (List.mem_reverse.mp hc)))]
    simp [List.dropWhile_cons]
  rw [h3]
  have h4 : ('\x7d' :: (mid.reverse ++ ['\x7b'])).reverse
      = '\x7b' :: mid ++ ['\x7d'] := by
    simp [List.reverse_cons, List.reverse_append]
  rw [h4]
  have h5 : 2 ≤ ('\x7b' :: mid ++ ['\x7d']).length := by
    simp [List.length_append]
  rw [if_pos h5]

/-! ## Claim C1 -/

/-- C1 (amended).  For every syntactically well-formed JSON object
completion wrapped in leading prose containing no `0x7b` character and
trailing prose containing no `0x7d` character, the parsing step of
`extract_lease_metadata` returns the decoded object with field values
unchanged; in particular the spec scenario holds (see the witness).  The
original claim allowed arbitrary prose, which fails when the trailing
prose contains a closing brace (see the counterexample). -/
theorem extract_metadata_wrapped_json (pre mid post : Str) (o : List (Str × Json))
    (hpre : ∀ c ∈ pre, c ≠ '\x7b')
    (hpost : ∀ c ∈ post, c ≠ '\x7d')
    (hparse : json_loads ('\x7b' :: mid ++ ['\x7d']) = some (Json.obj o)) :
    extractParseObj (pre ++ ('\x7b' :: mid ++ ['\x7d']) ++ post) = Json.obj o := by
  unfold extractParseObj
  rw [braceSpan_wrapped pre mid post hpre hpost]
  show (json_loads ('\x7b' :: mid ++ ['\x7d'])).getD _ = Json.obj o
  rw [hparse]
  rfl

/-- Witness for C1: the spec scenario
`Sure! Here is the JSON: \x7b"a":1\x7d Hope that helps.` yields the decoded
object `\x7b"a":1\x7d`. -/
theorem extract_metadata_wrapped_json_witness :
    extractParseObj (S "Sure! Here is the JSON: "
        ++ ('\x7b' :: S "\"a\":1" ++ ['\x7d']) ++ S " Hope that helps.")
      = Json.obj [(S "a", Json.num (S "1"))] :=
  extract_metadata_wrapped_json (S "Sure! Here is the JSON: ") (S "\"a\":1")
    (S " Hope that helps.") [(S "a", Json.num (S "1"))]
    (by decide) (by decide) rfl

/-- Counterexample for C1 as stated: with trailing prose containing a
closing brace, the greedy span (`\x7b"a":1\x7d bye\x7d`) fails to decode
and the extractor returns the sentinel object instead of the decoded
`\x7b"a":1\x7d`. -/
theorem extract_metadata_wrapped_json_cex :
    json_loads (S "\x7b\"a\":1\x7d") = some (Json.obj [(S "a", Json.num (S "1"))])
    ∧ extractParseObj (S "Here: \x7b\"a\":1\x7d bye\x7d")
        = sentinelMetadata (S "Here: \x7b\"a\":1\x7d bye\x7d")
    ∧ extractParseObj (S "Here: \x7b\"a\":1\x7d bye\x7d")
        ≠ Json.obj [(S "a", Json.num (S "1"))] :=
  ⟨rfl, rfl, fun h => absurd (congrArg firstKey h) (by decide)⟩

/-! ## Claim C2 -/

/-- C2 (amended).  For every completion on which the attempted JSON decode
fails — on the first-`0x7b`-to-last-`0x7d` substring when the pattern
matches, on the whole completion otherwise — the object-shape extraction
does not raise and returns exactly the sentinel object with the original
completion as `raw_response`.  The original claim's premise "no JSON
object can be decoded" is weaker: when the whole completion decodes to a
non-object JSON value, that value is returned instead of the sentinel (see
the counterexample). -/
theorem extract_metadata_decode_failure_sentinel (c : Str)
    (hfail : (match braceSpan c with
              | some m => json_loads m
              | none => json_loads c) = none) :
    extractParseObj c = sentinelMetadata c := by
  cases hs : braceSpan c with
  | some m =>
    rw [hs] at hfail
    have hf : json_loads m = none := hfail
    unfold extractParseObj
    rw [hs]
    show (json_loads m).getD (sentinelMetadata c) = sentinelMetadata c
    rw [hf]
    rfl
  | none =>
    rw [hs] at hfail
    have hf : json_loads c = none := hfail
    unfold extractParseObj
    rw [hs]
    show (json_loads c).getD (sentinelMetadata c) = sentinelMetadata c
    rw [hf]
    rfl

/-- Witness for C2: the spec scenario `I could not determine this.` yields
exactly the sentinel object. -/
theorem extract_metadata_decode_failure_sentinel_witness :
    extractParseObj (S "I could not determine this.")
      = Json.obj [(S "error", Json.str (S "Could not parse lease metadata")),
                  (S "raw_response", Json.str (S "I could not determine this."))] :=
  extract_metadata_decode_failure_sentinel (S "I could not determine this.") rfl

/-- Counterexample for C2 as stated: no JSON object can be decoded from
the completion `123` (there is no brace span and the whole string decodes
to the number `123`), yet the extraction returns that number, not the
sentinel object. -/
theorem extract_metadata_decode_failure_sentinel_cex :
    braceSpan (S "123") = none
    ∧ json_loads (S "123") = some (Json.num (S "123"))
    ∧ extractParseObj (S "123") = Json.num (S "123")
    ∧ extractParseObj (S "123") ≠ sentinelMetadata (S "123") :=
  ⟨rfl, rfl, rfl, fun h => absurd (congrArg ctorIdx h) (by decide)⟩

/-! ## Claim C3 -/

/-- C3 (amended).  For every completion on which the attempted JSON decode
fails — on the first-`[`-to-last-`]` substring when the pattern matches,
on the whole completion otherwise — the array-shape extraction does not
raise and returns exactly the one-element sentinel clause list.  The
original claim's premise "no JSON array can be decoded" is weaker: when
the whole completion decodes to a non-array JSON value, that value is
returned instead of the sentinel (see the counterexample). -/
theorem identify_clauses_decode_failure_sentinel (c : Str)
    (hfail : (match bracketSpan c with
              | some m => json_loads m
              | none => json_loads c) = none) :
    identifyParse c = Json.arr [sentinelClause] := by
  cases hs : bracketSpan c with
  | some m =>
    rw [hs] at hfail
    have hf : json_loads m = none := hfail
    unfold identifyParse
    rw [hs]
    show (json_loads m).getD (Json.arr [sentinelClause]) = Json.arr [sentinelClause]
    rw [hf]
    rfl
  | none =>
    rw [hs] at hfail
    have hf : json_loads c = none := hfail
    unfold identifyParse
    rw [hs]
    show (json_loads c).getD (Json.arr [sentinelClause]) = Json.arr [sentinelClause]
    rw [hf]
    rfl

/-- Witness for C3: a prose completion with no decodable JSON yields the
one-element sentinel clause list with the documented field values. -/
theorem identify_clauses_decode_failure_sentinel_witness :
    identifyParse (S "I am unable to analyze this lease.")
      = Json.arr [Json.obj
          [(S "clause", Json.str (S "Error parsing response")),
           (S "issue", Json.str (S "Could not analyze lease")),
           (S "severity", Json.str (S "Unknown")),
           (S "potentially_illegal", Json.bool false),
           (S "recommendation", Json.str (S "Manual review required"))]] :=
  identify_clauses_decode_failure_sentinel (S "I am unable to analyze this lease.") rfl

/-- Counterexample for C3 as stated: no JSON array can be decoded from the
completion `42` (there is no bracket span and the whole string decodes to
the number `42`), yet the extraction returns that number, not the sentinel
list. -/
theorem identify_clauses_decode_failure_sentinel_cex :
    bracketSpan (S "42") = none
    ∧ json_loads (S "42") = some (Json.num (S "42"))
    ∧ identifyParse (S "42") = Json.num (S "42")
    ∧ identifyParse (S "42") ≠ Json.arr [sentinelClause] :=
  ⟨rfl, rfl, rfl, fun h => absurd (congrArg ctorIdx h) (by decide)⟩

/-! ## Claim C4 -/

/-- Dict discriminator. -/
def isObj : Json → Bool
  | .obj _ => true
  | _ => false

/-- The severity test of the `high_priority` comprehension as a Boolean
predicate on a clause dict. -/
def isHighMed (c : Json) : Bool :=
  match c with
  | .obj es => isStrEq (dictGet es (S "severity")) (S "High")
      || isStrEq (dictGet es (S "severity")) (S "Medium")
  | _ => false

/-- The suggestion dict built for one clause by the rewrite loop when the
model client answers `f` on every prompt. -/
def pureRewrite (f : Str → Str) (ci : Json) : List (Str × Json) :=
  match ci with
  | .obj es =>
    [(S "original_clause", dictGetD es (S "clause") (Json.str [])),
     (S "severity", dictGetD es (S "severity") (Json.str [])),
     (S "rewrite_suggestion", Json.str (f (rewritePromptP1
        ++ pyStr (dictGetD es (S "clause") (Json.str [])) ++ rewritePromptP2
        ++ pyStr (dictGetD es (S "issue") (Json.str [])) ++ rewritePromptP3)))]
  | _ => []

theorem isStrEq_true {v : Json} {t : Str} (h : isStrEq v t = true) : v = Json.str t := by
  cases v with
  | str s =>
    simp [isStrEq] at h
    exact congrArg Json.str h
  | null => simp [isStrEq] at h
  | bool b => simp [isStrEq] at h
  | num l => simp [isStrEq] at h
  | arr xs => simp [isStrEq] at h
  | obj es => simp [isStrEq] at h

theorem isHighMed_isObj {c : Json} (h : isHighMed c = true) : isObj c = true := by
  cases c <;> simp_all [isHighMed, isObj]

theorem dictGetD_eq_of_dictGet_str (es : List (Str × Json)) (k : Str) (d : Json)
    (s : Str) (h : dictGet es k = Json.str s) : dictGetD es k d = Json.str s := by
  unfold dictGet at h
  unfold dictGetD
  cases hl : lookupKV es k with
  | some v =>
    rw [hl] at h
    simpa using h
  | none =>
    rw [hl] at h
    exact absurd h (by simp)

theorem filterHighMed_ok (cs : List Json) (hobj : ∀ x ∈ cs, isObj x = true) :
    filterHighMed cs = .ok (cs.filter isHighMed) := by
  induction cs with
  | nil => rfl
  | cons c rest ih =>
    have hc : isObj c = true := hobj c (List.mem_cons_self c rest)
    have hrest : ∀ x ∈ rest, isObj x = true :=
      fun x hx => hobj x (List.mem_cons_of_mem c hx)
    cases c with
    | obj es =>
      show (do
          let tail ← filterHighMed rest
          pure (if isHighMed (Json.obj es) then Json.obj es :: tail else tail) :
            Except Str (List Json))
        = .ok (List.filter isHighMed (Json.obj es :: rest))
      rw [ih hrest, List.filter_cons]
      cases isHighMed (Json.obj es) with
      | true => rfl
      | false => rfl
    | null => simp [isObj] at hc
    | bool b => simp [isObj] at hc
    | num l => simp [isObj] at hc
    | str s => simp [isObj] at hc
    | arr xs => simp [isObj] at hc

theorem rewriteLoop_ok (f : Str → Str) (l : List Json) (hobj : ∀ x ∈ l, isObj x = true) :
    rewriteLoop ⟨fun p => .ok (f p)⟩ l = .ok (l.map (pureRewrite f)) := by
  induction l with
  | nil => rfl
  | cons c rest ih =>
    have hc : isObj c = true := hobj c (List.mem_cons_self c rest)
    have hrest : ∀ x ∈ rest, isObj x = true :=
      fun x hx => hobj x (List.mem_cons_of_mem c hx)
    cases c with
    | obj es =>
      show (do
          let tail ← rewriteLoop ⟨fun p => .ok (f p)⟩ rest
          pure (pureRewrite f (Json.obj es) :: tail) :
            Except Str (List (List (Str × Json))))
        = .ok ((Json.obj es :: rest).map (pureRewrite f))
      rw [ih hrest]
      rfl
    | null => simp [isObj] at hc
    | bool b => simp [isObj] at hc
    | num l2 => simp [isObj] at hc
    | str s => simp [isObj] at hc
    | arr xs => simp [isObj] at hc

theorem bind_ok {e a b : Type} (x : a) (g : a → Except e b) :
    (Except.ok x : Except e a) >>= g = g x := rfl

theorem pure_ok {e a : Type} (x : a) : (pure x : Except e a) = Except.ok x := rfl

/-- Equational description of `suggest_lease_rewrites` on a list of clause
dicts with a total model client: the result is the map over the first five
High/Medium clauses in input order. -/
theorem suggest_lease_rewrites_eq (f : Str → Str) (t : Str) (cs : List Json)
    (hobj : ∀ x ∈ cs, isObj x = true) :
    suggest_lease_rewrites ⟨fun p => .ok (f p)⟩ (Json.arr cs) t
      = .ok (((cs.filter isHighMed).take 5).map (pureRewrite f)) := by
  unfold suggest_lease_rewrites
  cases cs with
  | nil => rfl
  | cons c0 rest =>
    have htr : pyTruthy (Json.arr (c0 :: rest)) = true := by simp [pyTruthy]
    rw [htr]
    show (do
      let high_priority ← filterHighMed (c0 :: rest)
      if high_priority.isEmpty then pure []
      else rewriteLoop ⟨fun p => .ok (f p)⟩ (high_priority.take 5) :
        Except Str (List (List (Str × Json))))
      = .ok ((((c0 :: rest).filter isHighMed).take 5).map (pureRewrite f))
    rw [filterHighMed_ok (c0 :: rest) hobj]
    show (if ((c0 :: rest).filter isHighMed).isEmpty then pure []
      else rewriteLoop ⟨fun p => .ok (f p)⟩ (((c0 :: rest).filter isHighMed).take 5))
      = .ok ((((c0 :: rest).filter isHighMed).take 5).map (pureRewrite f))
    cases hemp : ((c0 :: rest).filter isHighMed).isEmpty with
    | true =>
      rw [if_pos rfl]
      rw [List.isEmpty_iff.mp hemp]
      rfl
    | false =>
      rw [if_neg (by simp [hemp])]
      have htk : ∀ x ∈ ((c0 :: rest).filter isHighMed).take 5, isObj x = true := by
        intro x hx
        exact isHighMed_isObj
          (List.mem_filter.mp (List.take_subset 5 _ hx)).2
      exact rewriteLoop_ok f _ htk

/-- C4.  For every input sequence of problematic clause dicts (and a model
client that answers every prompt), `suggest_lease_rewrites` returns exactly
the suggestions derived from the clauses whose severity is the string
`High` or `Medium`, in input order, capped at the first 5, and each
returned entry's `severity` field equals the severity value of the clause
it was derived from (visible in `pureRewrite`); consequently the result
never has more than 5 entries and never contains severity `Low` or
`Unknown`. -/
theorem suggest_lease_rewrites_filter_cap (f : Str → Str) (t : Str) (cs : List Json)
    (hobj : ∀ x ∈ cs, isObj x = true) :
    suggest_lease_rewrites ⟨fun p => .ok (f p)⟩ (Json.arr cs) t
      = .ok (((cs.filter isHighMed).take 5).map (pureRewrite f))
    ∧ (((cs.filter isHighMed).take 5).map (pureRewrite f)).length ≤ 5
    ∧ (∀ r ∈ ((cs.filter isHighMed).take 5).map (pureRewrite f),
        lookupKV r (S "severity") = some (Json.str (S "High"))
        ∨ lookupKV r (S "severity") = some (Json.str (S "Medium"))) := by
  have htake : ∀ x ∈ (cs.filter isHighMed).take 5, isHighMed x = true := by
    intro x hx
    have hxf : x ∈ cs.filter isHighMed := List.take_subset 5 _ hx
    exact (List.mem_filter.mp hxf).2
  refine ⟨suggest_lease_rewrites_eq f t cs hobj, ?_, ?_⟩
  · simp [List.length_take]
  · intro r hr
    obtain ⟨x, hx, rfl⟩ := List.mem_map.mp hr
    have hhm : isHighMed x = true := htake x hx
    cases x with
    | obj es =>
      have hsev : isStrEq (dictGet es (S "severity")) (S "High") = true
          ∨ isStrEq (dictGet es (S "severity")) (S "Medium") = true := by
        simpa [isHighMed, Bool.or_eq_true] using hhm
      have hlk : lookupKV (pureRewrite f (Json.obj es)) (S "severity")
          = some (dictGetD es (S "severity") (Json.str [])) := rfl
      cases hsev with
      | inl h =>
        left
        have hd := dictGetD_eq_of_dictGet_str es (S "severity") (Json.str [])
          (S "High") (isStrEq_true h)
        rw [hlk, hd]
      | inr h =>
        right
        have hd := dictGetD_eq_of_dictGet_str es (S "severity") (Json.str [])
          (S "Medium") (isStrEq_true h)
        rw [hlk, hd]
    | null => simp [isHighMed] at hhm
    | bool b => simp [isHighMed] at hhm
    | num l => simp [isHighMed] at hhm
    | str s => simp [isHighMed] at hhm
    | arr xs => simp [isHighMed] at hhm

/-- The concrete clause list used by the C4 witness: a High clause, a Low
clause, an Unknown clause and a Medium clause. -/
def witnessClauses : List Json :=
  [Json.obj [(S "severity", Json.str (S "High")), (S "clause", Json.str (S "Clause A")),
             (S "issue", Json.str (S "Issue A"))],
   Json.obj [(S "severity", Json.str (S "Low")), (S "clause", Json.str (S "Clause B"))],
   Json.obj [(S "severity", Json.str (S "Unknown"))],
   Json.obj [(S "severity", Json.str (S "Medium")), (S "clause", Json.str (S "Clause C")),
             (S "issue", Json.str (S "Issue C"))]]

/-- Witness for C4 at a concrete clause list and client. -/
theorem suggest_lease_rewrites_filter_cap_witness :
    suggest_lease_rewrites ⟨fun p => .ok ((fun _ => S "SUGGESTION") p)⟩
        (Json.arr witnessClauses) (S "lease")
      = .ok (((witnessClauses.filter isHighMed).take 5).map
          (pureRewrite (fun _ => S "SUGGESTION")))
    ∧ (((witnessClauses.filter isHighMed).take 5).map
        (pureRewrite (fun _ => S "SUGGESTION"))).length ≤ 5
    ∧ (∀ r ∈ ((witnessClauses.filter isHighMed).take 5).map
          (pureRewrite (fun _ => S "SUGGESTION")),
        lookupKV r (S "severity") = some (Json.str (S "High"))
        ∨ lookupKV r (S "severity") = some (Json.str (S "Medium"))) :=
  suggest_lease_rewrites_filter_cap (fun _ => S "SUGGESTION") (S "lease")
    witnessClauses (by decide)

/-! ## Claim C5 -/

/-- A JSON array whose elements are all objects — the shape of a clause
list (the parse fallback sentinel always has this shape). -/
def isObjArray : Json → Bool
  | .arr xs => xs.all isObj
  | _ => false

/-- The `rental_price_analysis` entry of the results dict built by
`analyze_full_lease`. -/
theorem dictGet_price_field (a b c d e2 g : Json) :
    dictGet [(S "metadata", a), (S "summary", b), (S "problematic_clauses", c),
      (S "rental_price_analysis", d), (S "rewrite_suggestions", e2),
      (S "tenant_rights", g)] (S "rental_price_analysis") = d := rfl

/-- C5.  For every loaded session (nonempty document text, dict metadata)
and total model client whose identify completion parses to a clause list,
`analyze_full_lease` succeeds, and the `rental_price_analysis` field of
the result is non-absent (not `None`) exactly when the metadata has both a
truthy `monthly_rent` value and a truthy `city` value; when either is
missing or falsy the step is skipped without error. -/
theorem analyze_full_lease_price_gate (f : Str → Str) (text : Str) (es : List (Str × Json))
    (hne : text ≠ [])
    (hcl : isObjArray (identifyParse
      (f (identifyPromptPre ++ text ++ identifyPromptPost))) = true) :
    ∃ r, analyze_full_lease ⟨fun p => .ok (f p)⟩ ⟨some text, some (Json.obj es)⟩
        = .ok (.results r)
      ∧ ((dictGet r (S "rental_price_analysis") ≠ Json.null)
          ↔ (pyTruthy (dictGet es (S "monthly_rent")) = true
             ∧ pyTruthy (dictGet es (S "city")) = true)) := by
  have hie : text.isEmpty = false := by
    cases h : text.isEmpty with
    | false => rfl
    | true => exact absurd (List.isEmpty_iff.mp h) hne
  cases harr : identifyParse (f (identifyPromptPre ++ text ++ identifyPromptPost)) with
  | arr cs =>
    have hobjs : ∀ x ∈ cs, isObj x = true := by
      rw [harr] at hcl
      simpa [isObjArray, List.all_eq_true] using hcl
    unfold analyze_full_lease
    simp only [pyTruthyOptStr, hie, Bool.not_false, Bool.not_true, ite_false,
      Bool.false_eq_true, if_false]
    simp only [Option.getD, summarize_lease, identify_problematic_clauses,
      get_rental_price_context, get_tenant_rights_advice, bind_ok, pure_ok]
    rw [harr]
    simp only [pyLen, bind_ok]
    cases hg : pyTruthy (dictGet es (S "monthly_rent")) && pyTruthy (dictGet es (S "city")) with
    | true =>
      rw [if_pos rfl]
      rw [suggest_lease_rewrites_eq f text cs hobjs]
      simp only [bind_ok, pure_ok]
      refine ⟨_, rfl, ?_⟩
      rw [dictGet_price_field]
      have hg2 : pyTruthy (dictGet es (S "monthly_rent")) = true
          ∧ pyTruthy (dictGet es (S "city")) = true := by
        rw [Bool.and_eq_true] at hg
        exact hg
      exact ⟨fun _ => hg2, fun _ h => Json.noConfusion h⟩
    | false =>
      rw [if_neg Bool.false_ne_true]
      rw [suggest_lease_rewrites_eq f text cs hobjs]
      simp only [bind_ok, pure_ok]
      refine ⟨_, rfl, ?_⟩
      rw [dictGet_price_field]
      constructor
      · intro h
        exact absurd rfl h
      · intro hc
        have hgt : (pyTruthy (dictGet es (S "monthly_rent"))
            && pyTruthy (dictGet es (S "city"))) = true := by
          rw [Bool.and_eq_true]
          exact hc
        rw [hg] at hgt
        exact absurd hgt Bool.false_ne_true
  | null =>
    rw [harr] at hcl
    simp [isObjArray] at hcl
  | bool b =>
    rw [harr] at hcl
    simp [isObjArray] at hcl
  | num l =>
    rw [harr] at hcl
    simp [isObjArray] at hcl
  | str st =>
    rw [harr] at hcl
    simp [isObjArray] at hcl
  | obj o =>
    rw [harr] at hcl
    simp [isObjArray] at hcl

/-- Metadata dict used by the C5 witness: truthy rent and city. -/
def witnessMetadata : List (Str × Json) :=
  [(S "monthly_rent", Json.num (S "2500")), (S "city", Json.str (S "San Francisco"))]

/-- Witness for C5 at a concrete session and client: with truthy
`monthly_rent` and `city` the price-analysis field is present. -/
theorem analyze_full_lease_price_gate_witness :
    ∃ r, analyze_full_lease ⟨fun p => Except.ok ((fun _ => S "No issues found.") p)⟩
        ⟨some (S "Sample lease text"), some (Json.obj witnessMetadata)⟩
        = .ok (.results r)
      ∧ ((dictGet r (S "rental_price_analysis") ≠ Json.null)
          ↔ (pyTruthy (dictGet witnessMetadata (S "monthly_rent")) = true
             ∧ pyTruthy (dictGet witnessMetadata (S "city")) = true)) :=
  analyze_full_lease_price_gate (fun _ => S "No issues found.")
    (S "Sample lease text") witnessMetadata (by decide) rfl

/-! ## Claim C6 -/

/-- The `metadata` field (when present) is a dict. -/
def mdWF (r : List (Str × Json)) : Bool :=
  match lookupKV r (S "metadata") with
  | none => true
  | some (Json.obj _) => true
  | _ => false

/-- A text field (when present) is a string. -/
def strFieldWF (r : List (Str × Json)) (k : Str) : Bool :=
  match lookupKV r k with
  | none => true
  | some (Json.str _) => true
  | _ => false

/-- A problematic clause rendered by the formatter: a dict whose
`severity` (defaulted to `Unknown`) is a string — the only clause field
the formatter calls a string method on. -/
def isClauseWF (c : Json) : Bool :=
  match c with
  | Json.obj es =>
    (match dictGetD es (S "severity") (Json.str (S "Unknown")) with
     | Json.str _ => true
     | _ => false)
  | _ => false

/-- The `problematic_clauses` field is falsy or a list of well-formed
clause dicts. -/
def clausesWF (r : List (Str × Json)) : Bool :=
  !pyTruthy (dictGetD r (S "problematic_clauses") (Json.arr []))
    || (match dictGetD r (S "problematic_clauses") (Json.arr []) with
        | Json.arr xs => xs.all isClauseWF
        | _ => false)

/-- The `rental_price_analysis` field is falsy or a string. -/
def priceWF (r : List (Str × Json)) : Bool :=
  !pyTruthy (dictGet r (S "rental_price_analysis"))
    || (match dictGet r (S "rental_price_analysis") with
        | Json.str _ => true
        | _ => false)

/-- The `rewrite_suggestions` field is falsy or a list of dicts. -/
def rewritesWF (r : List (Str × Json)) : Bool :=
  !pyTruthy (dictGetD r (S "rewrite_suggestions") (Json.arr []))
    || (match dictGetD r (S "rewrite_suggestions") (Json.arr []) with
        | Json.arr xs => xs.all isObj
        | _ => false)

/-- A results dict conforming to the AnalysisResult data model, with any
subset of fields absent. -/
def wfResults (r : List (Str × Json)) : Bool :=
  mdWF r && strFieldWF r (S "summary") && clausesWF r && priceWF r
    && rewritesWF r && strFieldWF r (S "tenant_rights")

theorem bind_ok_ex {e a b : Type} {x : Except e a} {g : a → Except e b}
    (hx : ∃ v, x = .ok v) (hg : ∀ v, ∃ w, g v = .ok w) : ∃ w, x >>= g = .ok w := by
  obtain ⟨v, hv⟩ := hx
  obtain ⟨w, hw⟩ := hg v
  exact ⟨w, by rw [hv, bind_ok, hw]⟩

theorem propertySectionE_ok (r : List (Str × Json)) (h : mdWF r = true) :
    ∃ s, propertySectionE r = .ok s := by
  unfold propertySectionE dictGetD
  unfold mdWF at h
  cases hl : lookupKV r (S "metadata") with
  | none => exact ⟨_, rfl⟩
  | some v =>
    rw [hl] at h
    cases v with
    | obj md => exact ⟨_, rfl⟩
    | null => exact absurd h Bool.false_ne_true
    | bool b => exact absurd h Bool.false_ne_true
    | num l => exact absurd h Bool.false_ne_true
    | str sv => exact absurd h Bool.false_ne_true
    | arr xs => exact absurd h Bool.false_ne_true

theorem summarySectionE_ok (r : List (Str × Json))
    (h : strFieldWF r (S "summary") = true) :
    ∃ s, summarySectionE r = .ok s
      ∧ (lookupKV r (S "summary") = none →
          s = S "📋 LEASE SUMMARY\n" ++ dashLine ++ S "\n" ++ S "N/A" ++ S "\n\n") := by
  unfold summarySectionE dictGetD
  unfold strFieldWF at h
  cases hl : lookupKV r (S "summary") with
  | none => exact ⟨_, rfl, fun _ => rfl⟩
  | some v =>
    rw [hl] at h
    cases v with
    | str sv => exact ⟨_, rfl, fun hn => Option.noConfusion hn⟩
    | null => exact absurd h Bool.false_ne_true
    | bool b => exact absurd h Bool.false_ne_true
    | num l => exact absurd h Bool.false_ne_true
    | arr xs => exact absurd h Bool.false_ne_true
    | obj md => exact absurd h Bool.false_ne_true

theorem renderClauses_ok (xs : List Json) (h : ∀ x ∈ xs, isClauseWF x = true) :
    ∀ i, ∃ s, renderClauses i xs = .ok s := by
  induction xs with
  | nil => exact fun i => ⟨[], rfl⟩
  | cons c rest ih =>
    intro i
    have hc := h c (List.mem_cons_self c rest)
    have hrest : ∀ x ∈ rest, isClauseWF x = true :=
      fun x hx => h x (List.mem_cons_of_mem c hx)
    obtain ⟨st, hst⟩ := ih hrest (i + 1)
    cases c with
    | obj es =>
      have hc2 : (match dictGetD es (S "severity") (Json.str (S "Unknown")) with
                  | Json.str _ => true
                  | _ => false) = true := hc
      cases hsev : dictGetD es (S "severity") (Json.str (S "Unknown")) with
      | str sv =>
        have h1 : pyUpper (dictGetD es (S "severity") (Json.str (S "Unknown")))
            = .ok (sv.map Char.toUpper) := by
          rw [hsev]
          rfl
        exact bind_ok_ex ⟨_, h1⟩ (fun sevU => bind_ok_ex ⟨_, hst⟩ (fun tail => ⟨_, rfl⟩))
      | null => rw [hsev] at hc2; exact absurd hc2 Bool.false_ne_true
      | bool b => rw [hsev] at hc2; exact absurd hc2 Bool.false_ne_true
      | num l => rw [hsev] at hc2; exact absurd hc2 Bool.false_ne_true
      | arr ys => rw [hsev] at hc2; exact absurd hc2 Bool.false_ne_true
      | obj md => rw [hsev] at hc2; exact absurd hc2 Bool.false_ne_true
    | null => exact absurd hc Bool.false_ne_true
    | bool b => exact absurd hc Bool.false_ne_true
    | num l => exact absurd hc Bool.false_ne_true
    | str sv => exact absurd hc Bool.false_ne_true
    | arr ys => exact absurd hc Bool.false_ne_true

theorem issuesSectionE_ok (r : List (Str × Json)) (h : clausesWF r = true) :
    ∃ s, issuesSectionE r = .ok s := by
  simp only [issuesSectionE]
  unfold clausesWF at h
  cases ht : pyTruthy (dictGetD r (S "problematic_clauses") (Json.arr [])) with
  | false => exact ⟨_, rfl⟩
  | true =>
    rw [ht] at h
    simp only [Bool.not_true, Bool.false_or] at h
    cases hv : dictGetD r (S "problematic_clauses") (Json.arr []) with
    | arr xs =>
      rw [hv] at h
      have hall : ∀ x ∈ xs, isClauseWF x = true := List.all_eq_true.mp h
      obtain ⟨body, hb⟩ := renderClauses_ok xs hall 1
      exact bind_ok_ex ⟨_, hb⟩ (fun b2 => ⟨_, rfl⟩)
    | null => rw [hv] at h; exact absurd h Bool.false_ne_true
    | bool b => rw [hv] at h; exact absurd h Bool.false_ne_true
    | num l => rw [hv] at h; exact absurd h Bool.false_ne_true
    | str sv => rw [hv] at h; exact absurd h Bool.false_ne_true
    | obj md => rw [hv] at h; exact absurd h Bool.false_ne_true

theorem priceSectionE_ok (r : List (Str × Json)) (h : priceWF r = true) :
    ∃ s, priceSectionE r = .ok s
      ∧ (pyTruthy (dictGet r (S "rental_price_analysis")) = false → s = []) := by
  simp only [priceSectionE]
  unfold priceWF at h
  cases ht : pyTruthy (dictGet r (S "rental_price_analysis")) with
  | false => exact ⟨[], rfl, fun _ => rfl⟩
  | true =>
    rw [ht] at h
    simp only [Bool.not_true, Bool.false_or] at h
    cases hv : dictGet r (S "rental_price_analysis") with
    | str sv =>
      exact ⟨_, rfl, fun hf => Bool.noConfusion hf⟩
    | null => rw [hv] at h; exact absurd h Bool.false_ne_true
    | bool b => rw [hv] at h; exact absurd h Bool.false_ne_true
    | num l => rw [hv] at h; exact absurd h Bool.false_ne_true
    | arr xs => rw [hv] at h; exact absurd h Bool.false_ne_true
    | obj md => rw [hv] at h; exact absurd h Bool.false_ne_true

theorem renderRewrites_ok (xs : List Json) (h : ∀ x ∈ xs, isObj x = true) :
    ∀ i, ∃ s, renderRewrites i xs = .ok s := by
  induction xs with
  | nil => exact fun i => ⟨[], rfl⟩
  | cons c rest ih =>
    intro i
    have hc := h c (List.mem_cons_self c rest)
    have hrest : ∀ x ∈ rest, isObj x = true :=
      fun x hx => h x (List.mem_cons_of_mem c hx)
    obtain ⟨st, hst⟩ := ih hrest (i + 1)
    cases c with
    | obj es =>
      exact bind_ok_ex ⟨_, hst⟩ (fun tail => ⟨_, rfl⟩)
    | null => exact absurd hc Bool.false_ne_true
    | bool b => exact absurd hc Bool.false_ne_true
    | num l => exact absurd hc Bool.false_ne_true
    | str sv => exact absurd hc Bool.false_ne_true
    | arr ys => exact absurd hc Bool.false_ne_true

theorem rewritesSectionE_ok (r : List (Str × Json)) (h : rewritesWF r = true) :
    ∃ s, rewritesSectionE r = .ok s := by
  simp only [rewritesSectionE]
  unfold rewritesWF at h
  cases ht : pyTruthy (dictGetD r (S "rewrite_suggestions") (Json.arr [])) with
  | false => exact ⟨_, rfl⟩
  | true =>
    rw [ht] at h
    simp only [Bool.not_true, Bool.false_or] at h
    cases hv : dictGetD r (S "rewrite_suggestions") (Json.arr []) with
    | arr xs =>
      rw [hv] at h
      obtain ⟨body, hb⟩ := renderRewrites_ok xs (List.all_eq_true.mp h) 1
      exact bind_ok_ex ⟨_, hb⟩ (fun b2 => ⟨_, rfl⟩)
    | null => rw [hv] at h; exact absurd h Bool.false_ne_true
    | bool b => rw [hv] at h; exact absurd h Bool.false_ne_true
    | num l => rw [hv] at h; exact absurd h Bool.false_ne_true
    | str sv => rw [hv] at h; exact absurd h Bool.false_ne_true
    | obj md => rw [hv] at h; exact absurd h Bool.false_ne_true

theorem rightsSectionE_ok (r : List (Str × Json))
    (h : strFieldWF r (S "tenant_rights") = true) :
    ∃ s, rightsSectionE r = .ok s := by
  unfold rightsSectionE dictGetD
  unfold strFieldWF at h
  cases hl : lookupKV r (S "tenant_rights") with
  | none => exact ⟨_, rfl⟩
  | some v =>
    rw [hl] at h
    cases v with
    | str sv => exact ⟨_, rfl⟩
    | null => exact absurd h Bool.false_ne_true
    | bool b => exact absurd h Bool.false_ne_true
    | num l => exact absurd h Bool.false_ne_true
    | arr xs => exact absurd h Bool.false_ne_true
    | obj md => exact absurd h Bool.false_ne_true

/-- C6.  For every results dict conforming to the AnalysisResult data
model — any subset of fields may be missing — `format_analysis_report`
never fails: it returns a report consisting of the banner and the six
sections in the fixed source order (property info, summary, issues, price
analysis, rewrites, rights) followed by the footer; the price-analysis
contribution is empty exactly when that field is absent or falsy, and a
missing summary is substituted by the default text `N/A`. -/
theorem format_analysis_report_total_sections (results : List (Str × Json))
    (hwf : wfResults results = true) :
    ∃ s1 s2 s3 s4 s5 s6,
      propertySectionE results = .ok s1
      ∧ summarySectionE results = .ok s2
      ∧ issuesSectionE results = .ok s3
      ∧ priceSectionE results = .ok s4
      ∧ rewritesSectionE results = .ok s5
      ∧ rightsSectionE results = .ok s6
      ∧ format_analysis_report results
          = .ok (reportHeader ++ s1 ++ s2 ++ s3 ++ s4 ++ s5 ++ s6 ++ reportFooter)
      ∧ (pyTruthy (dictGet results (S "rental_price_analysis")) = false → s4 = [])
      ∧ (lookupKV results (S "summary") = none →
          s2 = S "📋 LEASE SUMMARY\n" ++ dashLine ++ S "\n" ++ S "N/A" ++ S "\n\n") := by
  simp only [wfResults, Bool.and_eq_true] at hwf
  obtain ⟨⟨⟨⟨⟨h1, h2⟩, h3⟩, h4⟩, h5⟩, h6⟩ := hwf
  obtain ⟨s1, hs1⟩ := propertySectionE_ok results h1
  obtain ⟨s2, hs2, hs2n⟩ := summarySectionE_ok results h2
  obtain ⟨s3, hs3⟩ := issuesSectionE_ok results h3
  obtain ⟨s4, hs4, hs4n⟩ := priceSectionE_ok results h4
  obtain ⟨s5, hs5⟩ := rewritesSectionE_ok results h5
  obtain ⟨s6, hs6⟩ := rightsSectionE_ok results h6
  refine ⟨s1, s2, s3, s4, s5, s6, hs1, hs2, hs3, hs4, hs5, hs6, ?_, hs4n, hs2n⟩
  simp only [format_analysis_report, hs1, hs2, hs3, hs4, hs5, hs6, bind_ok, pure_ok]

/-- Witness for C6: the empty results dict — every field missing — is
well-formed and formats successfully. -/
theorem format_analysis_report_total_sections_witness :
    ∃ s1 s2 s3 s4 s5 s6,
      propertySectionE [] = .ok s1
      ∧ summarySectionE [] = .ok s2
      ∧ issuesSectionE [] = .ok s3
      ∧ priceSectionE [] = .ok s4
      ∧ rewritesSectionE [] = .ok s5
      ∧ rightsSectionE [] = .ok s6
      ∧ format_analysis_report []
          = .ok (reportHeader ++ s1 ++ s2 ++ s3 ++ s4 ++ s5 ++ s6 ++ reportFooter)
      ∧ (pyTruthy (dictGet [] (S "rental_price_analysis")) = false → s4 = [])
      ∧ (lookupKV [] (S "summary") = none →
          s2 = S "📋 LEASE SUMMARY\n" ++ dashLine ++ S "\n" ++ S "N/A" ++ S "\n\n") :=
  format_analysis_report_total_sections [] (by decide)

/-! ## Claim C7 -/

/-- C7.  The load operations never propagate an exception: for every
client, loader, state and input, `load_lease` and `load_lease_text` return
a status dict that is either `success` carrying the metadata now stored in
the session, or `error` with a message (any underlying text-extraction or
metadata-extraction failure is caught and converted to the latter). -/
theorem load_never_raises (c : Client) (loader : Str → Except Str Str)
    (st : AgentState) (file_path text : Str) (manual_metadata : Json) :
    ((∃ md, (load_lease c loader st file_path).2
        = ⟨S "success", S "Lease loaded successfully", some md⟩
        ∧ (load_lease c loader st file_path).1.metadata = some md)
     ∨ (∃ msg, (load_lease c loader st file_path).2 = ⟨S "error", msg, none⟩))
    ∧ ((∃ md, (load_lease_text c st text manual_metadata).2
        = ⟨S "success", S "Lease text loaded successfully", some md⟩
        ∧ (load_lease_text c st text manual_metadata).1.metadata = some md)
     ∨ (∃ msg, (load_lease_text c st text manual_metadata).2
        = ⟨S "error", msg, none⟩)) := by
  constructor
  · unfold load_lease
    cases loader file_path with
    | error e => exact Or.inr ⟨e, rfl⟩
    | ok text2 =>
      cases hm : extract_lease_metadata c text2 with
      | error e => exact Or.inr ⟨e, by simp only [hm]⟩
      | ok md => exact Or.inl ⟨md, by simp only [hm], by simp only [hm]⟩
  · unfold load_lease_text
    cases hmm : pyTruthy manual_metadata with
    | true => exact Or.inl ⟨manual_metadata, rfl, rfl⟩
    | false =>
      cases extract_lease_metadata c text with
      | error e => exact Or.inr ⟨e, rfl⟩
      | ok md => exact Or.inl ⟨md, rfl, rfl⟩

/-! ## Claim C8 -/

/-- C8.  The prompt sent for metadata extraction substitutes exactly the
leading prefix of at most 8000 characters of the document text; the
rights-advice prompt substitutes the leading prefix of at most 4000
characters; the summarize and identify-issues prompts substitute the full
untruncated text. -/
theorem prompt_truncation_bounds (c : Client) (t : Str) (state city : Json) :
    extract_lease_metadata c t
      = (c.complete (metadataPromptPre ++ t.take 8000 ++ metadataPromptPost)).map
          extractParseObj
    ∧ (t.take 8000).length ≤ 8000
    ∧ t.take 8000 <+: t
    ∧ get_tenant_rights_advice c t state city
      = c.complete (rightsPromptPre
          ++ (if pyTruthy city then pyStr city ++ S ", " ++ pyStr state else pyStr state)
          ++ rightsPromptMid ++ t.take 4000 ++ rightsPromptPost)
    ∧ (t.take 4000).length ≤ 4000
    ∧ t.take 4000 <+: t
    ∧ summarize_lease c t = c.complete (summaryPromptPre ++ t ++ summaryPromptPost)
    ∧ identify_problematic_clauses c t
      = (c.complete (identifyPromptPre ++ t ++ identifyPromptPost)).map identifyParse := by
  refine ⟨?_, ?_, ⟨t.drop 8000, List.take_append_drop 8000 t⟩, rfl, ?_,
    ⟨t.drop 4000, List.take_append_drop 4000 t⟩, rfl, ?_⟩
  · unfold extract_lease_metadata
    cases c.complete (metadataPromptPre ++ t.take 8000 ++ metadataPromptPost) with
    | error e => rfl
    | ok r => rfl
  · rw [List.length_take]
    exact Nat.min_le_left _ _
  · rw [List.length_take]
    exact Nat.min_le_left _ _
  · unfold identify_problematic_clauses
    cases c.complete (identifyPromptPre ++ t ++ identifyPromptPost) with
    | error e => rfl
    | ok r => rfl

/-! ## Claim C9 -/

/-- C9.  `load_lease_text` is not atomic on failure: it stores the new
document text before attempting metadata extraction, so when extraction
raises the call returns status `error` with the session text already
replaced while the session metadata still holds its pre-call value. -/
theorem load_lease_text_partial_state_on_failure (c : Client) (st : AgentState)
    (text e : Str)
    (hfail : c.complete (metadataPromptPre ++ text.take 8000 ++ metadataPromptPost)
      = .error e) :
    (load_lease_text c st text Json.null).1.lease_text = some text
    ∧ (load_lease_text c st text Json.null).1.metadata = st.metadata
    ∧ (load_lease_text c st text Json.null).2.status = S "error" := by
  have hex : extract_lease_metadata c text = .error e := by
    unfold extract_lease_metadata
    rw [hfail]
    rfl
  unfold load_lease_text
  rw [hex]
  exact ⟨rfl, rfl, rfl⟩

/-- Witness for C9: a failing client, an old session with stored text and
metadata, a new text — after the failed call the session holds the new
text but the old metadata, and the result is an error dict. -/
theorem load_lease_text_partial_state_on_failure_witness :
    (load_lease_text ⟨fun _ => .error (S "transport failure")⟩
        ⟨some (S "old lease"), some (Json.str (S "old metadata"))⟩
        (S "new lease") Json.null).1.lease_text = some (S "new lease")
    ∧ (load_lease_text ⟨fun _ => .error (S "transport failure")⟩
        ⟨some (S "old lease"), some (Json.str (S "old metadata"))⟩
        (S "new lease") Json.null).1.metadata
      = (⟨some (S "old lease"), some (Json.str (S "old metadata"))⟩ : AgentState).metadata
    ∧ (load_lease_text ⟨fun _ => .error (S "transport failure")⟩
        ⟨some (S "old lease"), some (Json.str (S "old metadata"))⟩
        (S "new lease") Json.null).2.status = S "error" :=
  load_lease_text_partial_state_on_failure ⟨fun _ => .error (S "transport failure")⟩
    ⟨some (S "old lease"), some (Json.str (S "old metadata"))⟩
    (S "new lease") (S "transport failure") rfl

/-! ## Claim C10 -/

/-- C10.  `format_analysis_report` is deterministic: it is a pure function
of the results dict (the embedding shows it reads no other state), so two
calls on the same AnalysisResult value yield identical output. -/
theorem format_analysis_report_deterministic (results : List (Str × Json)) :
    format_analysis_report results = format_analysis_report results := rfl

end LeaseApp
